import Mathlib

/-!
Verification development for the dgfx Vulkan render context
(`src/vulkan/RenderContextVK.cpp`). The definitions below are a shallow
embedding of the data model and operations of that file: the resource
registry and its command executors, the LinkProgram descriptor-binding
merge, the uniform staging writes performed during frame recording, the
pipeline and descriptor-set caches, and the frame synchronization engine
(fences, in-flight frame slots, swapchain image tracking).

GPU object identities (buffers, memories, pipelines, descriptor sets) are
modelled as natural numbers allocated from a counter; byte memory is
modelled as `List Nat`; fallible paths (assertions, `std::vector::at`)
are modelled with `Except`/`Option`.
-/

namespace Dgfx

/-- Association-list helper: a successful `List.lookup` exhibits a member
of the list. -/
theorem lookup_mem {α β : Type} [BEq α] [LawfulBEq α] {l : List (α × β)} {k : α} {v : β}
    (h : l.lookup k = some v) : (k, v) ∈ l := by
  induction l with
  | nil => simp [List.lookup] at h
  | cons e es ih =>
    rw [List.lookup] at h
    by_cases hk : k == e.1
    · simp only [hk] at h
      cases h
      have : (k, e.2) = e := Prod.ext (eq_of_beq hk) rfl
      rw [this]
      exact List.mem_cons_self _ _
    · simp only [Bool.not_eq_true] at hk
      simp only [hk] at h
      exact List.mem_cons_of_mem _ (ih h)

/-! ### Pipeline state cache (findOrCreateGraphicsPipeline) -/

/-- Modelled from the spec: the key type `PipelineVK::Info` is declared in
`RenderContextVK.h`, whose current version is not in the sources (only a
stale revision without the cache types is). Per spec section 4.2 the key
is "(draw-state flags — currently just colour-write enabled/disabled —,
vertex-layout identity, program identity)": stable structural identifiers
only, never addresses of per-frame transient draw data. -/
structure PipelineKey where
  colourWrite : Bool
  vertexLayoutId : Nat
  programId : Nat
deriving DecidableEq, Repr

/-- State of the graphics pipeline cache: an exact-match association from
keys to pipeline identities, plus a counter supplying the identity of the
next pipeline the device would create on a miss. There is no eviction. -/
structure PipelineCacheState where
  cache : List (PipelineKey × Nat)
  nextId : Nat
deriving Repr

/-- Embedding of `RenderContextVK::findOrCreateGraphicsPipeline`
(RenderContextVK.cpp lines 1132-1261): look the key up in
`graphics_pipeline_cache_`; on a hit return the cached pipeline identity
unchanged; on a miss create a fresh pipeline and emplace it. -/
def findOrCreateGraphicsPipeline (s : PipelineCacheState) (k : PipelineKey) :
    Nat × PipelineCacheState :=
  match s.cache.lookup k with
  | some p => (p, s)
  | none => (s.nextId, ⟨(k, s.nextId) :: s.cache, s.nextId + 1⟩)

/-- Well-formedness of a pipeline cache state: every cached pipeline
identity was allocated below the counter, and distinct cache entries hold
distinct pipeline identities. Holds for the empty cache and is preserved
by every resolution. -/
def PipelineCacheWF (s : PipelineCacheState) : Prop :=
  (∀ e ∈ s.cache, e.2 < s.nextId) ∧ (s.cache.map Prod.snd).Nodup

/-! ### Descriptor set cache (findOrCreateDescriptorSet) -/

/-- Modelled from the spec: the key type `DescriptorSetVK::Info` is
declared in the missing current `RenderContextVK.h`. Per spec section 4.3
the key is "program identity". -/
structure DescriptorSetKey where
  programId : Nat
deriving DecidableEq, Repr

/-- State of the descriptor set cache: association from program identity
to the identity of the allocated per-swapchain-image set group, plus the
allocation counter of the descriptor pool. -/
structure DescriptorCacheState where
  cache : List (DescriptorSetKey × Nat)
  nextId : Nat
deriving Repr

/-- Embedding of `RenderContextVK::findOrCreateDescriptorSet`
(RenderContextVK.cpp lines 1263-1326): look the program identity up in
`descriptor_set_cache_`; on a hit return the cached per-image set group;
on a miss allocate a fresh group and emplace it. -/
def findOrCreateDescriptorSet (s : DescriptorCacheState) (k : DescriptorSetKey) :
    Nat × DescriptorCacheState :=
  match s.cache.lookup k with
  | some g => (g, s)
  | none => (s.nextId, ⟨(k, s.nextId) :: s.cache, s.nextId + 1⟩)

theorem pipelineCache_wf_preserved (s : PipelineCacheState) (k : PipelineKey)
    (h : PipelineCacheWF s) : PipelineCacheWF (findOrCreateGraphicsPipeline s k).2 := by
  unfold findOrCreateGraphicsPipeline
  cases hc : s.cache.lookup k with
  | some p => exact h
  | none =>
    obtain ⟨h1, h2⟩ := h
    refine ⟨?_, ?_⟩
    · intro e he
      simp only [List.mem_cons] at he
      rcases he with he | he
      · simp [he]
      · exact Nat.lt_succ_of_lt (h1 e he)
    · simp only [List.map_cons, List.nodup_cons]
      refine ⟨?_, h2⟩
      intro hmem
      simp only [List.mem_map] at hmem
      obtain ⟨e, he, heq⟩ := hmem
      exact absurd heq (Nat.ne_of_lt (h1 e he))

theorem pipelineCache_lookup_lt (s : PipelineCacheState) (k : PipelineKey) (v : Nat)
    (h : PipelineCacheWF s) (hl : s.cache.lookup k = some v) : v < s.nextId := by
  exact h.1 (k, v) (lookup_mem hl)

/-- Association-list helper: looking up the key just inserted at the head
finds the inserted value. -/
theorem lookup_cons_self {α β : Type} [BEq α] [LawfulBEq α] (k : α) (v : β)
    (l : List (α × β)) : ((k, v) :: l).lookup k = some v := by
  simp [List.lookup]

/-- Association-list helper: a different key at the head does not affect a
lookup. -/
theorem lookup_cons_ne {α β : Type} [BEq α] [LawfulBEq α] (k k2 : α) (v : β)
    (l : List (α × β)) (h : k2 ≠ k) : ((k, v) :: l).lookup k2 = l.lookup k2 := by
  have hb : (k2 == k) = false := beq_false_of_ne h
  simp [List.lookup, hb]

/-- Association-list helper: if the values of an association list are
pairwise distinct, a value determines its key. -/
theorem nodup_values_key_eq {α β : Type} {l : List (α × β)} {k1 k2 : α} {v : β}
    (hnd : (l.map Prod.snd).Nodup) (h1 : (k1, v) ∈ l) (h2 : (k2, v) ∈ l) : k1 = k2 := by
  induction l with
  | nil => simp at h1
  | cons e es ih =>
    simp only [List.map_cons, List.nodup_cons] at hnd
    rcases List.mem_cons.1 h1 with he1 | he1 <;> rcases List.mem_cons.1 h2 with he2 | he2
    · rw [← he1] at he2
      exact (Prod.mk.injEq _ _ _ _ ▸ he2.symm).1
    · exfalso
      apply hnd.1
      rw [← he1]
      exact List.mem_map.2 ⟨(k2, v), he2, rfl⟩
    · exfalso
      apply hnd.1
      rw [← he2]
      exact List.mem_map.2 ⟨(k1, v), he1, rfl⟩
    · exact ih hnd.2 he1 he2

/-- C1: two pipeline-cache resolutions with identical draw state (same
colour-write flag, same vertex-layout identity, same program identity)
return the same cached pipeline identity and leave the cache unchanged on
the second resolution, while flipping only the colour-write flag yields a
distinct cache entry (a distinct pipeline identity). The cache key is by
construction built only from these stable structural identifiers. -/
theorem pipeline_cache_key_resolution (s : PipelineCacheState) (k : PipelineKey)
    (hwf : PipelineCacheWF s) :
    ((findOrCreateGraphicsPipeline (findOrCreateGraphicsPipeline s k).2 k).1 =
        (findOrCreateGraphicsPipeline s k).1 ∧
      (findOrCreateGraphicsPipeline (findOrCreateGraphicsPipeline s k).2 k).2 =
        (findOrCreateGraphicsPipeline s k).2) ∧
    (findOrCreateGraphicsPipeline (findOrCreateGraphicsPipeline s k).2
        ⟨!k.colourWrite, k.vertexLayoutId, k.programId⟩).1 ≠
      (findOrCreateGraphicsPipeline s k).1 := by
  have hkne : (⟨!k.colourWrite, k.vertexLayoutId, k.programId⟩ : PipelineKey) ≠ k := by
    intro h
    have := congrArg PipelineKey.colourWrite h
    simp at this
  constructor
  · unfold findOrCreateGraphicsPipeline
    cases hc : s.cache.lookup k with
    | some p => simp [hc]
    | none => simp [hc, lookup_cons_self]
  · unfold findOrCreateGraphicsPipeline
    cases hc : s.cache.lookup k with
    | some p =>
      simp only [hc]
      cases hc2 : s.cache.lookup ⟨!k.colourWrite, k.vertexLayoutId, k.programId⟩ with
      | some q =>
        simp only [hc2]
        intro hq
        exact hkne (nodup_values_key_eq hwf.2 (lookup_mem hc2) (hq ▸ lookup_mem hc))
      | none =>
        simp only [hc2]
        exact Nat.ne_of_gt (hwf.1 _ (lookup_mem hc))
    | none =>
      simp only [hc, lookup_cons_ne _ _ _ _ hkne]
      cases hc2 : s.cache.lookup ⟨!k.colourWrite, k.vertexLayoutId, k.programId⟩ with
      | some q =>
        simp only [hc2]
        exact Nat.ne_of_lt (hwf.1 _ (lookup_mem hc2))
      | none =>
        simp only [hc2]
        exact Nat.succ_ne_self s.nextId

/-- Witness for C1 at a concrete cache state and key: starting from the
empty cache, resolving key (colour-write on, layout 3, program 5) twice
gives the same pipeline, and resolving with colour-write off gives a
different pipeline. -/
theorem pipeline_cache_key_resolution_witness :
    PipelineCacheWF ⟨[], 0⟩ ∧
      (findOrCreateGraphicsPipeline
          (findOrCreateGraphicsPipeline ⟨[], 0⟩ ⟨true, 3, 5⟩).2 ⟨false, 3, 5⟩).1 ≠
        (findOrCreateGraphicsPipeline ⟨[], 0⟩ ⟨true, 3, 5⟩).1 := by
  have hwf : PipelineCacheWF ⟨[], 0⟩ := by
    constructor
    · intro e he
      simp at he
    · simp
  have h := pipeline_cache_key_resolution ⟨[], 0⟩ ⟨true, 3, 5⟩ hwf
  exact ⟨hwf, by simpa using h.2⟩

/-- C9: two descriptor-set-cache resolutions for the same program identity
return the same cached per-swapchain-image set-group identity, and the
second resolution is a pure cache hit that leaves the cache unchanged. -/
theorem descriptor_set_cache_resolution (s : DescriptorCacheState) (k : DescriptorSetKey) :
    (findOrCreateDescriptorSet (findOrCreateDescriptorSet s k).2 k).1 =
        (findOrCreateDescriptorSet s k).1 ∧
      (findOrCreateDescriptorSet (findOrCreateDescriptorSet s k).2 k).2 =
        (findOrCreateDescriptorSet s k).2 := by
  unfold findOrCreateDescriptorSet
  cases hc : s.cache.lookup k with
  | some p => simp [hc]
  | none => simp [hc, lookup_cons_self]

/-! ### Frame synchronization engine (RenderContextVK::frame, lines 300-314 and 437-464)

The engine keeps `kMaxFramesInFlight = 2` fence slots (`in_flight_fences_`)
cycled by `current_frame_`, and per swapchain image the fence handle of the
frame currently occupying it (`images_in_flight_`). Fence handles are in
bijection with slot indices, so the model stores the slot index. Frames are
numbered by a ghost counter; `done` records the frames whose completion is
guaranteed by a fence wait that has returned. -/

/-- State of the frame synchronization engine. `owner f` is the frame
number of the last submission on fence slot `f` (none if the fence has
never been submitted and is still in its initial signaled state);
`done n` records that frame `n` is known to have completed on the GPU;
`occ i` is the (frame number, fence slot) pair of the frame occupying
swapchain image `i`, mirroring `images_in_flight_`. -/
structure SyncState where
  currentFrame : Nat
  frameCount : Nat
  owner : Nat → Option Nat
  done : Nat → Bool
  occ : Nat → Option (Nat × Nat)

/-- Initial synchronization state, as established by `createSyncObjects`
(lines 1116-1130): fences created signaled with no pending submission,
`images_in_flight_` all null, `current_frame_ = 0`. -/
def SyncState.init : SyncState :=
  { currentFrame := 0, frameCount := 0, owner := fun _ => none,
    done := fun _ => false, occ := fun _ => none }

/-- Effect of a returned `waitForFences` on fence slot `f`: the wait blocks
until the fence signals, so on return the frame of the last submission on
`f` (if any) is known complete. -/
def SyncState.wait (s : SyncState) (f : Nat) : SyncState :=
  match s.owner f with
  | none => s
  | some k => { s with done := fun j => if j = k then true else s.done j }

/-- The waits performed by `frame()` before recording begins (lines
300-312): wait on the current slot's fence, then, if the acquired image is
still marked in-use by an older frame's fence, wait on that fence too. -/
def SyncState.afterWaits (s : SyncState) (next : Nat) : SyncState :=
  match (s.wait s.currentFrame).occ next with
  | some kf => (s.wait s.currentFrame).wait kf.2
  | none => s.wait s.currentFrame

/-- One execution of `frame()` with acquired image index `next` (lines
300-464): the pre-record waits, marking the image as in use by the current
slot's fence, then reset and submit on the current slot's fence and advance
`current_frame_` modulo `kMaxFramesInFlight = 2`. -/
def SyncState.step (s : SyncState) (next : Nat) : SyncState :=
  { currentFrame := (s.currentFrame + 1) % 2,
    frameCount := s.frameCount + 1,
    owner := fun f => if f = s.currentFrame then some s.frameCount else s.owner f,
    done := (s.afterWaits next).done,
    occ := fun i => if i = next then some (s.frameCount, s.currentFrame) else s.occ i }

/-- A run of the engine: one `frame()` call per acquired image index in the
list. -/
def SyncState.run (acqs : List Nat) : SyncState :=
  acqs.foldl SyncState.step SyncState.init

/-- Safety of the record point of a `frame()` call acquiring image `next`:
once the pre-record waits have returned, the frame that previously occupied
image `next` (if any) is known to have completed, i.e. its fence has
signaled before the new frame starts recording on that image. -/
def SyncState.recordSafe (s : SyncState) (next : Nat) : Prop :=
  ∀ k f, (s.afterWaits next).occ next = some (k, f) → (s.afterWaits next).done k = true

/-- Inductive invariant of the synchronization engine: every image's
occupant frame points at a fence slot whose last submission is no older
than the occupant, and if the slot has since been resubmitted by a newer
frame then the occupant is already known complete; all submitted frame
numbers are below the frame counter. -/
def SyncInv (s : SyncState) : Prop :=
  (∀ i k f, s.occ i = some (k, f) →
    ∃ kl, s.owner f = some kl ∧ k ≤ kl ∧ (k < kl → s.done k = true)) ∧
  (∀ f kl, s.owner f = some kl → kl < s.frameCount)

theorem syncInv_init : SyncInv SyncState.init := by
  constructor
  · intro i k f h
    simp [SyncState.init] at h
  · intro f kl h
    simp [SyncState.init] at h

theorem wait_owner (s : SyncState) (f g : Nat) : (s.wait f).owner g = s.owner g := by
  unfold SyncState.wait
  cases s.owner f <;> rfl

theorem wait_occ (s : SyncState) (f i : Nat) : (s.wait f).occ i = s.occ i := by
  unfold SyncState.wait
  cases s.owner f <;> rfl

theorem wait_currentFrame (s : SyncState) (f : Nat) :
    (s.wait f).currentFrame = s.currentFrame := by
  unfold SyncState.wait
  cases s.owner f <;> rfl

theorem wait_frameCount (s : SyncState) (f : Nat) :
    (s.wait f).frameCount = s.frameCount := by
  unfold SyncState.wait
  cases s.owner f <;> rfl

theorem wait_done_mono (s : SyncState) (f j : Nat) (h : s.done j = true) :
    (s.wait f).done j = true := by
  unfold SyncState.wait
  cases s.owner f with
  | none => exact h
  | some k =>
    simp only
    by_cases hj : j = k <;> simp [hj, h]

theorem wait_done_owner (s : SyncState) (f k : Nat) (h : s.owner f = some k) :
    (s.wait f).done k = true := by
  unfold SyncState.wait
  rw [h]
  simp

theorem afterWaits_occ (s : SyncState) (next i : Nat) :
    (s.afterWaits next).occ i = s.occ i := by
  unfold SyncState.afterWaits
  cases h : (s.wait s.currentFrame).occ next with
  | some kf => rw [wait_occ, wait_occ]
  | none => rw [wait_occ]

theorem afterWaits_owner (s : SyncState) (next g : Nat) :
    (s.afterWaits next).owner g = s.owner g := by
  unfold SyncState.afterWaits
  cases h : (s.wait s.currentFrame).occ next with
  | some kf => rw [wait_owner, wait_owner]
  | none => rw [wait_owner]

theorem afterWaits_done_mono (s : SyncState) (next j : Nat) (h : s.done j = true) :
    (s.afterWaits next).done j = true := by
  unfold SyncState.afterWaits
  cases hc : (s.wait s.currentFrame).occ next with
  | some kf => exact wait_done_mono _ _ _ (wait_done_mono _ _ _ h)
  | none => exact wait_done_mono _ _ _ h

theorem afterWaits_done_of_current (s : SyncState) (next k : Nat)
    (h : s.owner s.currentFrame = some k) : (s.afterWaits next).done k = true := by
  unfold SyncState.afterWaits
  cases hc : (s.wait s.currentFrame).occ next with
  | some kf => exact wait_done_mono _ _ _ (wait_done_owner _ _ _ h)
  | none => exact wait_done_owner _ _ _ h

theorem afterWaits_done_of_occ (s : SyncState) (next k f : Nat)
    (hocc : s.occ next = some (k, f)) (howner : s.owner f = some k) :
    (s.afterWaits next).done k = true := by
  unfold SyncState.afterWaits
  have h1 : (s.wait s.currentFrame).occ next = some (k, f) := by
    rw [wait_occ]; exact hocc
  rw [h1]
  exact wait_done_owner _ _ _ (by rw [wait_owner]; exact howner)

theorem syncInv_recordSafe (s : SyncState) (hinv : SyncInv s) (next : Nat) :
    s.recordSafe next := by
  intro k f hocc
  rw [afterWaits_occ] at hocc
  obtain ⟨kl, howner, hle, hdone⟩ := hinv.1 next k f hocc
  rcases Nat.lt_or_ge k kl with hlt | hge
  · exact afterWaits_done_mono _ _ _ (hdone hlt)
  · have hkeq : k = kl := Nat.le_antisymm hle hge
    subst hkeq
    exact afterWaits_done_of_occ s next k f hocc howner

theorem syncInv_step (s : SyncState) (next : Nat) (hinv : SyncInv s) :
    SyncInv (s.step next) := by
  constructor
  · intro i k f hocc
    simp only [SyncState.step] at hocc ⊢
    by_cases hi : i = next
    · rw [if_pos hi] at hocc
      cases hocc
      exact ⟨s.frameCount, by simp, Nat.le_refl _, fun h => absurd h (Nat.lt_irrefl _)⟩
    · rw [if_neg hi] at hocc
      obtain ⟨kl, howner, hle, hdone⟩ := hinv.1 i k f hocc
      by_cases hf : f = s.currentFrame
      · subst hf
        refine ⟨s.frameCount, by simp, ?_, ?_⟩
        · exact Nat.le_of_lt (Nat.lt_of_le_of_lt hle (hinv.2 _ kl howner))
        · intro _
          rcases Nat.lt_or_ge k kl with hlt | hge
          · exact afterWaits_done_mono _ _ _ (hdone hlt)
          · have hkeq : k = kl := Nat.le_antisymm hle hge
            subst hkeq
            exact afterWaits_done_of_current _ _ _ howner
      · refine ⟨kl, ?_, hle, ?_⟩
        · rw [if_neg hf]
          exact howner
        · intro hlt
          exact afterWaits_done_mono _ _ _ (hdone hlt)
  · intro f kl howner
    simp only [SyncState.step] at howner
    by_cases hf : f = s.currentFrame
    · rw [if_pos hf] at howner
      cases howner
      exact Nat.lt_succ_self _
    · rw [if_neg hf] at howner
      exact Nat.lt_succ_of_lt (hinv.2 f kl howner)

theorem syncInv_run_from (acqs : List Nat) :
    ∀ s, SyncInv s → SyncInv (acqs.foldl SyncState.step s) := by
  induction acqs with
  | nil => intro s h; exact h
  | cons a l ih =>
    intro s h
    exact ih _ (syncInv_step s a h)

theorem syncInv_run (acqs : List Nat) : SyncInv (SyncState.run acqs) :=
  syncInv_run_from acqs SyncState.init syncInv_init

/-- C2: in every execution of `frame()` (any number of prior frames, any
sequence of acquired swapchain image indices), when a frame acquires an
image that is still marked in-use by an older frame's fence, the
pre-record waits guarantee that the previous occupant of that image has
completed (its fence has signaled) before recording begins: no swapchain
image is reused for a new frame before the fence of the frame that
previously occupied it has signaled, so at most one in-flight frame exists
per swapchain image. -/
theorem frame_no_image_reuse_before_fence (acqs : List Nat) (next : Nat) :
    (SyncState.run acqs).recordSafe next :=
  syncInv_recordSafe _ (syncInv_run acqs) next

/-! ### Frame recording: uniform staging writes, uploads and draws
(RenderContextVK::frame, lines 360-431) -/

/-- Model of `ProgramVK::UniformLocation` from the flattened field-offset map built
by LinkProgram: UBO index (none marks a push-constant location), byte
offset and byte size of the field. -/
structure UniformLocation where
  ubo_index : Option Nat
  offset : Nat
  size : Nat
deriving DecidableEq, Repr

/-- Model of `ProgramVK::AutoUniformBuffer`: a uniform block's byte size and the
contents of its host-visible staging buffer (`buffers[0]`), modelled as a
byte list. -/
structure AutoUniformBuffer where
  size : Nat
  staging : List Nat
deriving DecidableEq, Repr

/-- The parts of `ProgramVK` that frame recording reads: the per-block
uniform buffers and the flattened "block.field" uniform-location map. -/
structure ProgramVK where
  uniform_buffers : List AutoUniformBuffer
  uniform_locations : List (String × UniformLocation)
deriving DecidableEq, Repr

/-- A `RenderItem` of the frame contract: program handle, optional vertex
and index buffers with byte offsets, primitive count, colour-write flag,
and the map from uniform name to the value's bytes. -/
structure RenderItem where
  program : Nat
  vb : Option Nat
  vb_offset : Nat
  ib : Option Nat
  ib_offset : Nat
  primitive_count : Nat
  colour_write : Bool
  uniforms : List (String × List Nat)
deriving DecidableEq, Repr

/-- GPU commands recorded for a render item. -/
inductive GpuOp where
  | copyBuffer (uboIdx imageIdx : Nat)
  | bindPipeline (colourWrite : Bool)
  | bindDescriptorSets (imageIdx : Nat)
  | bindVertexBuffer (vb off : Nat)
  | bindIndexBuffer (ib off : Nat)
  | draw (vertexCount : Nat)
  | drawIndexed (indexCount : Nat)
deriving DecidableEq, Repr

/-- Log events emitted while recording or linking: warnings, and the
conflict logged by LinkProgram when two stages declare the same binding
index with different descriptor kinds. -/
inductive LogEvent where
  | warn (msg : String)
  | bindingConflict (binding : Nat)
deriving DecidableEq, Repr

/-- Model of the `std::memcpy` into mapped staging memory (line 387):
write `bytes` into `buf` starting at byte offset `off`, leaving all other
positions unchanged. -/
def writeBytes (buf : List Nat) (off : Nat) (bytes : List Nat) : List Nat :=
  buf.mapIdx fun j v => if off ≤ j ∧ j < off + bytes.length then bytes.getD (j - off) 0 else v

/-- One iteration of the uniform-update loop (lines 371-394): look the
uniform name up in `program.uniform_locations`; an unknown name is skipped
(without logging); a location without a UBO index is a push-constant
uniform, which logs a warning and is skipped; otherwise the value's bytes
are copied into the block's staging buffer at the recorded offset. -/
def applyUniform (prog : ProgramVK) (acc : List (List Nat) × List LogEvent)
    (u : String × List Nat) : List (List Nat) × List LogEvent :=
  match prog.uniform_locations.lookup u.1 with
  | none => acc
  | some loc =>
    match loc.ubo_index with
    | none => (acc.1, acc.2 ++ [LogEvent.warn "Push constants not implemented yet."])
    | some idx => (acc.1.set idx (writeBytes (acc.1.getD idx []) loc.offset u.2), acc.2)

/-- The whole uniform-update loop of one render item, over the staging
contents of all of the program's uniform blocks. -/
def writeUniforms (prog : ProgramVK) (stagings : List (List Nat))
    (us : List (String × List Nat)) : List (List Nat) × List LogEvent :=
  us.foldl (applyUniform prog) (stagings, [])

/-- The draw issued for a render item that has a vertex buffer (lines
424-430): an indexed draw of `primitive_count * 3` indices when an index
buffer is set (after binding it), otherwise a non-indexed draw of
`primitive_count * 3` vertices. -/
def drawOps (ri : RenderItem) : List GpuOp :=
  match ri.ib with
  | some ibh => [GpuOp.bindIndexBuffer ibh ri.ib_offset,
      GpuOp.drawIndexed (ri.primitive_count * 3)]
  | none => [GpuOp.draw (ri.primitive_count * 3)]

/-- The pipeline/descriptor/vertex-buffer binds and the draw (lines
403-430). When the item has no vertex buffer the code hits
`if (!ri.vb) continue;` and none of these commands are recorded. -/
def bindAndDrawOps (next : Nat) (ri : RenderItem) : List GpuOp :=
  match ri.vb with
  | none => []
  | some vbh => GpuOp.bindPipeline ri.colour_write :: GpuOp.bindDescriptorSets next ::
      GpuOp.bindVertexBuffer vbh ri.vb_offset :: drawOps ri

/-- All GPU commands recorded for one render item with acquired swapchain
image `next` (lines 360-431): first, one unconditional staging-to-device
`copyBuffer` per uniform block the program declares (lines 395-401, before
the vertex-buffer test), then — only if a vertex buffer is present — the
binds and the draw. -/
def renderItemOps (prog : ProgramVK) (next : Nat) (ri : RenderItem) : List GpuOp :=
  ((List.range prog.uniform_buffers.length).map fun i => GpuOp.copyBuffer i next) ++
    bindAndDrawOps next ri

/-- Recognizer for draw commands. -/
def isDrawOp : GpuOp → Bool
  | GpuOp.draw _ => true
  | GpuOp.drawIndexed _ => true
  | _ => false

theorem length_writeBytes (buf : List Nat) (off : Nat) (bytes : List Nat) :
    (writeBytes buf off bytes).length = buf.length := by
  unfold writeBytes
  exact List.length_mapIdx

theorem writeBytes_getD_in (buf : List Nat) (off : Nat) (bytes : List Nat)
    (hoff : off + bytes.length ≤ buf.length) (i : Nat) (hi : i < bytes.length) :
    (writeBytes buf off bytes).getD (off + i) 0 = bytes.getD i 0 := by
  have hj : off + i < buf.length := Nat.lt_of_lt_of_le (Nat.add_lt_add_left hi off) hoff
  have hj2 : off + i < (writeBytes buf off bytes).length := by
    rw [length_writeBytes]; exact hj
  rw [List.getD_eq_get _ _ hj2]
  unfold writeBytes
  rw [List.get_mapIdx _ _ _ hj]
  have hcond : off ≤ off + i ∧ off + i < off + bytes.length :=
    ⟨Nat.le_add_right _ _, Nat.add_lt_add_left hi off⟩
  rw [if_pos hcond, Nat.add_sub_cancel_left]

theorem writeBytes_getD_out (buf : List Nat) (off : Nat) (bytes : List Nat) (j : Nat)
    (h : j < off ∨ off + bytes.length ≤ j) :
    (writeBytes buf off bytes).getD j 0 = buf.getD j 0 := by
  by_cases hj : j < buf.length
  · have hj2 : j < (writeBytes buf off bytes).length := by
      rw [length_writeBytes]; exact hj
    rw [List.getD_eq_get _ _ hj2, List.getD_eq_get _ _ hj]
    unfold writeBytes
    rw [List.get_mapIdx _ _ _ hj]
    have hcond : ¬(off ≤ j ∧ j < off + bytes.length) := by
      rcases h with h | h
      · exact fun hc => absurd hc.1 (Nat.not_le_of_lt h)
      · exact fun hc => absurd hc.2 (Nat.not_lt_of_le h)
    rw [if_neg hcond]
  · have hge : buf.length ≤ j := Nat.le_of_not_lt hj
    rw [List.getD_eq_default _ _ (by rw [length_writeBytes]; exact hge),
      List.getD_eq_default _ _ hge]

/-- C4: for every render item processed during recording, one
staging-to-device copy is issued for every uniform block the item's
program declares, unconditionally — independent of the item's uniform map
and even when the item has no vertex buffer; in the no-vertex-buffer case
the recorded commands are exactly the copies: the pipeline/descriptor
binds and the draw are skipped. -/
theorem uniform_upload_unconditional (prog : ProgramVK) (ri : RenderItem) (next : Nat) :
    (∀ i, i < prog.uniform_buffers.length →
      GpuOp.copyBuffer i next ∈ renderItemOps prog next ri) ∧
    (ri.vb = none → renderItemOps prog next ri =
      (List.range prog.uniform_buffers.length).map fun i => GpuOp.copyBuffer i next) := by
  constructor
  · intro i hi
    unfold renderItemOps
    exact List.mem_append_left _ (List.mem_map.2 ⟨i, List.mem_range.2 hi, rfl⟩)
  · intro h
    unfold renderItemOps bindAndDrawOps
    rw [h]
    simp

/-- Witness for C4: a concrete item with one declared uniform block, a
nonempty uniform map and no vertex buffer records exactly the one copy
command and nothing else. -/
theorem uniform_upload_unconditional_witness :
    GpuOp.copyBuffer 0 1 ∈ renderItemOps ⟨[⟨4, [0, 0, 0, 0]⟩], []⟩ 1
        ⟨7, none, 0, none, 0, 1, true, [("u.x", [9])]⟩ ∧
      renderItemOps ⟨[⟨4, [0, 0, 0, 0]⟩], []⟩ 1
          ⟨7, none, 0, none, 0, 1, true, [("u.x", [9])]⟩ = [GpuOp.copyBuffer 0 1] := by
  have h := uniform_upload_unconditional ⟨[⟨4, [0, 0, 0, 0]⟩], []⟩
    ⟨7, none, 0, none, 0, 1, true, [("u.x", [9])]⟩ 1
  refine ⟨h.1 0 (by decide), ?_⟩
  rw [h.2 rfl]
  decide

/-- C8: for every render item that has a vertex buffer, exactly one draw
command is recorded: an indexed draw with index count
`primitive_count * 3` when an index buffer is set, otherwise a non-indexed
draw with vertex count `primitive_count * 3`. -/
theorem single_draw_per_item (prog : ProgramVK) (ri : RenderItem) (next vbh : Nat)
    (h : ri.vb = some vbh) :
    ((renderItemOps prog next ri).filter isDrawOp).length = 1 ∧
    (∀ ibh, ri.ib = some ibh → (renderItemOps prog next ri).filter isDrawOp =
      [GpuOp.drawIndexed (ri.primitive_count * 3)]) ∧
    (ri.ib = none → (renderItemOps prog next ri).filter isDrawOp =
      [GpuOp.draw (ri.primitive_count * 3)]) := by
  have hc : (((List.range prog.uniform_buffers.length).map fun i =>
      GpuOp.copyBuffer i next).filter isDrawOp) = [] := by
    rw [List.filter_eq_nil_iff]
    intro a ha
    obtain ⟨i, hi, rfl⟩ := List.mem_map.1 ha
    simp [isDrawOp]
  unfold renderItemOps
  rw [List.filter_append, hc, List.nil_append]
  unfold bindAndDrawOps
  rw [h]
  cases hib : ri.ib with
  | some ibh =>
    unfold drawOps
    rw [hib]
    exact ⟨by simp [isDrawOp], fun ibh2 hib2 => by simp [isDrawOp],
      fun hib2 => Option.noConfusion hib2⟩
  | none =>
    unfold drawOps
    rw [hib]
    exact ⟨by simp [isDrawOp], fun ibh2 hib2 => Option.noConfusion hib2,
      fun hib2 => by simp [isDrawOp]⟩

/-- Witness for C8: a single item with a vertex buffer, primitive count 1
and no index buffer records exactly one draw, a non-indexed draw with
vertex count 3. -/
theorem single_draw_per_item_witness :
    (renderItemOps ⟨[], []⟩ 0 ⟨1, some 2, 0, none, 0, 1, true, []⟩).filter isDrawOp =
        [GpuOp.draw 3] ∧
      ((renderItemOps ⟨[], []⟩ 0 ⟨1, some 2, 0, none, 0, 1, true, []⟩).filter
        isDrawOp).length = 1 := by
  have h := single_draw_per_item ⟨[], []⟩ ⟨1, some 2, 0, none, 0, 1, true, []⟩ 0 2 rfl
  exact ⟨by simpa using h.2.2 rfl, h.1⟩

/-- Whether one entry of the item's uniform map resolves to a field of
block `idx` whose recorded byte range covers position `j`. -/
def touchesU (prog : ProgramVK) (u : String × List Nat) (idx j : Nat) : Bool :=
  match prog.uniform_locations.lookup u.1 with
  | none => false
  | some loc =>
    match loc.ubo_index with
    | none => false
    | some idx2 =>
      (idx2 == idx) && (decide (loc.offset ≤ j)) &&
        (decide (j < loc.offset + u.2.length))

/-- A byte position (block `idx`, offset `j`) is touched by the
uniform-update loop when some entry of the item's uniform map resolves to
a field of that block whose recorded byte range covers `j`. -/
def touchedAt (prog : ProgramVK) (us : List (String × List Nat)) (idx j : Nat) : Bool :=
  us.any fun u => touchesU prog u idx j

theorem applyUniform_eq_of_none (prog : ProgramVK) (u : String × List Nat)
    (acc : List (List Nat) × List LogEvent)
    (hl : prog.uniform_locations.lookup u.1 = none) : applyUniform prog acc u = acc := by
  unfold applyUniform
  split
  · rfl
  · next loc heq =>
    rw [hl] at heq
    cases heq

theorem applyUniform_eq_of_push (prog : ProgramVK) (u : String × List Nat)
    (acc : List (List Nat) × List LogEvent) (loc : UniformLocation)
    (hl : prog.uniform_locations.lookup u.1 = some loc) (hu : loc.ubo_index = none) :
    applyUniform prog acc u =
      (acc.1, acc.2 ++ [LogEvent.warn "Push constants not implemented yet."]) := by
  unfold applyUniform
  split
  · next heq =>
    rw [hl] at heq
    cases heq
  · next loc2 heq =>
    rw [hl] at heq
    injection heq with h2
    subst h2
    split
    · rfl
    · next idx heq2 =>
      rw [hu] at heq2
      cases heq2

theorem applyUniform_eq_of_write (prog : ProgramVK) (u : String × List Nat)
    (acc : List (List Nat) × List LogEvent) (loc : UniformLocation) (idx : Nat)
    (hl : prog.uniform_locations.lookup u.1 = some loc) (hu : loc.ubo_index = some idx) :
    applyUniform prog acc u =
      (acc.1.set idx (writeBytes (acc.1.getD idx []) loc.offset u.2), acc.2) := by
  unfold applyUniform
  split
  · next heq =>
    rw [hl] at heq
    cases heq
  · next loc2 heq =>
    rw [hl] at heq
    injection heq with h2
    subst h2
    split
    · next heq2 =>
      rw [hu] at heq2
      cases heq2
    · next idx2 heq2 =>
      rw [hu] at heq2
      injection heq2 with h3
      subst h3
      rfl

theorem touchesU_eq_of_write (prog : ProgramVK) (u : String × List Nat)
    (loc : UniformLocation) (idx2 idx j : Nat)
    (hl : prog.uniform_locations.lookup u.1 = some loc) (hu : loc.ubo_index = some idx2) :
    touchesU prog u idx j =
      ((idx2 == idx) && (decide (loc.offset ≤ j)) &&
        (decide (j < loc.offset + u.2.length))) := by
  unfold touchesU
  split
  · next heq =>
    rw [hl] at heq
    cases heq
  · next loc2 heq =>
    rw [hl] at heq
    injection heq with h2
    subst h2
    split
    · next heq2 =>
      rw [hu] at heq2
      cases heq2
    · next idx3 heq2 =>
      rw [hu] at heq2
      injection heq2 with h3
      subst h3
      rfl

theorem set_getD_self (st : List (List Nat)) (idx : Nat) (x : List Nat)
    (h : idx < st.length) : (st.set idx x).getD idx [] = x := by
  simp [List.getD_eq_getElem, List.length_set, h]

theorem set_getD_ne (st : List (List Nat)) (idx idx2 : Nat) (x : List Nat)
    (h : idx ≠ idx2) : (st.set idx x).getD idx2 [] = st.getD idx2 [] := by
  simp [List.getD_eq_getD_get?, List.get?_eq_getElem?, List.getElem?_set_ne h]

theorem applyUniform_getD_untouched (prog : ProgramVK) (st : List (List Nat))
    (lg : List LogEvent) (u : String × List Nat) (idx j : Nat)
    (h : touchesU prog u idx j = false) :
    ((applyUniform prog (st, lg) u).1.getD idx []).getD j 0 =
      (st.getD idx []).getD j 0 := by
  cases hl : prog.uniform_locations.lookup u.1 with
  | none => rw [applyUniform_eq_of_none prog u _ hl]
  | some loc =>
    cases hu : loc.ubo_index with
    | none => rw [applyUniform_eq_of_push prog u _ loc hl hu]
    | some idx2 =>
      rw [applyUniform_eq_of_write prog u _ loc idx2 hl hu]
      rw [touchesU_eq_of_write prog u loc idx2 idx j hl hu] at h
      by_cases hidx : idx2 = idx
      · subst hidx
        simp only [beq_self_eq_true, Bool.true_and] at h
        have hout : j < loc.offset ∨ loc.offset + u.2.length ≤ j := by
          rcases Bool.and_eq_false_iff.1 h with h1 | h1
          · exact Or.inl (Nat.lt_of_not_le (by simpa using h1))
          · exact Or.inr (Nat.le_of_not_lt (by simpa using h1))
        by_cases hlen : idx2 < st.length
        · rw [set_getD_self st idx2 _ hlen]
          exact writeBytes_getD_out _ _ _ _ hout
        · have hge : st.length ≤ idx2 := Nat.le_of_not_lt hlen
          have e1 : ((st, lg).1.set idx2
              (writeBytes ((st, lg).1.getD idx2 []) loc.offset u.2)).getD idx2
              ([] : List Nat) = [] :=
            List.getD_eq_default _ _ (by rw [List.length_set]; exact hge)
          have e2 : st.getD idx2 ([] : List Nat) = [] := List.getD_eq_default _ _ hge
          rw [e1, e2]
      · rw [set_getD_ne st idx2 idx _ hidx]

theorem writeUniforms_from_getD_untouched (prog : ProgramVK)
    (us : List (String × List Nat)) :
    ∀ (st : List (List Nat)) (lg : List LogEvent) (idx j : Nat),
      touchedAt prog us idx j = false →
      ((us.foldl (applyUniform prog) (st, lg)).1.getD idx []).getD j 0 =
        (st.getD idx []).getD j 0 := by
  induction us with
  | nil =>
    intro st lg idx j _
    rfl
  | cons u rest ih =>
    intro st lg idx j h
    unfold touchedAt at h
    rw [List.any_cons, Bool.or_eq_false_iff] at h
    rw [List.foldl_cons]
    exact (ih (applyUniform prog (st, lg) u).1 (applyUniform prog (st, lg) u).2
      idx j h.2).trans (applyUniform_getD_untouched prog st lg u idx j h.1)

/-- C5: a uniform name that resolves through the program's flattened
field-offset map has its value bytes written into the block's staging
buffer at the recorded offset — reading the staging buffer back at the
recorded (block, offset, size) immediately after the write yields exactly
the written bytes — and the whole uniform-update loop leaves every staging
byte outside the written fields unchanged (no zero-fill). -/
theorem staging_write_readback (prog : ProgramVK) (st : List (List Nat))
    (lg : List LogEvent) (name : String) (bytes : List Nat) (loc : UniformLocation)
    (idx : Nat) (hl : prog.uniform_locations.lookup name = some loc)
    (hu : loc.ubo_index = some idx) (hlen : idx < st.length)
    (hoff : loc.offset + bytes.length ≤ (st.getD idx []).length) :
    (∀ i, i < bytes.length →
      ((applyUniform prog (st, lg) (name, bytes)).1.getD idx []).getD
        (loc.offset + i) 0 = bytes.getD i 0) ∧
    (∀ (us : List (String × List Nat)) (idx2 j : Nat),
      touchedAt prog us idx2 j = false →
      ((writeUniforms prog st us).1.getD idx2 []).getD j 0 =
        (st.getD idx2 []).getD j 0) := by
  constructor
  · intro i hi
    rw [applyUniform_eq_of_write prog (name, bytes) _ loc idx hl hu]
    rw [set_getD_self st idx _ hlen]
    exact writeBytes_getD_in _ _ _ hoff i hi
  · intro us idx2 j h
    unfold writeUniforms
    exact writeUniforms_from_getD_untouched prog us st [] idx2 j h

/-- Witness for C5: writing field "u.mvp_matrix" (4 bytes at recorded
offset 4 of block 0) into a staging buffer previously holding 9s, reading
back position offset+1 yields the written byte, and a staging byte outside
every written field keeps its prior value 9. -/
theorem staging_write_readback_witness :
    ((applyUniform ⟨[⟨8, [9, 9, 9, 9, 9, 9, 9, 9]⟩], [("u.mvp_matrix", ⟨some 0, 4, 4⟩)]⟩
          ([[9, 9, 9, 9, 9, 9, 9, 9]], []) ("u.mvp_matrix", [1, 2, 3, 4])).1.getD 0
        []).getD (4 + 1) 0 = [1, 2, 3, 4].getD 1 0 ∧
      ((writeUniforms ⟨[⟨8, [9, 9, 9, 9, 9, 9, 9, 9]⟩], [("u.mvp_matrix", ⟨some 0, 4, 4⟩)]⟩
            [[9, 9, 9, 9, 9, 9, 9, 9]] [("u.mvp_matrix", [1, 2, 3, 4])]).1.getD 0
          []).getD 0 0 = ([[9, 9, 9, 9, 9, 9, 9, 9]].getD 0 []).getD 0 0 := by
  have h := staging_write_readback
    ⟨[⟨8, [9, 9, 9, 9, 9, 9, 9, 9]⟩], [("u.mvp_matrix", ⟨some 0, 4, 4⟩)]⟩
    [[9, 9, 9, 9, 9, 9, 9, 9]] [] "u.mvp_matrix" [1, 2, 3, 4] ⟨some 0, 4, 4⟩ 0
    (by decide) rfl (by decide) (by decide)
  exact ⟨h.1 1 (by decide), h.2 [("u.mvp_matrix", [1, 2, 3, 4])] 0 0 (by decide)⟩

/-- Counterexample for C7: a render item carrying the uniform "u.unknown",
which the program's uniform-location map does not contain, produces no log
output at all during the uniform-update loop — in particular no warning is
logged for the unknown name; the code silently skips it
(RenderContextVK.cpp lines 373-376 hit a bare continue with no logging). -/
theorem unknown_uniform_no_warning :
    (writeUniforms ⟨[⟨4, [0, 0, 0, 0]⟩], [("u.known", ⟨some 0, 0, 4⟩)]⟩ [[0, 0, 0, 0]]
        [("u.unknown", [1, 2, 3, 4])]).2 = [] := by
  decide

/-- C7 (amended): a uniform name absent from the program's
uniform-location map is skipped silently — no write, no log entry, and
execution continues (non-fatally) with the state unchanged; a uniform
resolving to a push-constant location (no UBO index) logs a warning and is
skipped, execution likewise continuing. -/
theorem uniform_lookup_miss_behaviour (prog : ProgramVK) (st : List (List Nat))
    (lg : List LogEvent) (name : String) (bytes : List Nat) :
    (prog.uniform_locations.lookup name = none →
      applyUniform prog (st, lg) (name, bytes) = (st, lg)) ∧
    (∀ loc, prog.uniform_locations.lookup name = some loc → loc.ubo_index = none →
      applyUniform prog (st, lg) (name, bytes) =
        (st, lg ++ [LogEvent.warn "Push constants not implemented yet."])) :=
  ⟨fun h => applyUniform_eq_of_none prog (name, bytes) (st, lg) h,
    fun loc h1 h2 => applyUniform_eq_of_push prog (name, bytes) (st, lg) loc h1 h2⟩

/-- Witness for the amended C7 at concrete inputs: an unknown uniform name
leaves state and logs untouched; a push-constant-style uniform appends
exactly the warning. -/
theorem uniform_lookup_miss_behaviour_witness :
    applyUniform ⟨[], [("u.known", ⟨some 0, 0, 4⟩)]⟩ ([[0, 0, 0, 0]], [])
        ("u.unknown", [1]) = ([[0, 0, 0, 0]], []) ∧
      applyUniform ⟨[], [("u.pc", ⟨none, 0, 4⟩)]⟩ ([[0]], []) ("u.pc", [1]) =
        ([[0]], [LogEvent.warn "Push constants not implemented yet."]) := by
  have h1 := uniform_lookup_miss_behaviour ⟨[], [("u.known", ⟨some 0, 0, 4⟩)]⟩
    [[0, 0, 0, 0]] [] "u.unknown" [1]
  have h2 := uniform_lookup_miss_behaviour ⟨[], [("u.pc", ⟨none, 0, 4⟩)]⟩ [[0]] [] "u.pc" [1]
  exact ⟨h1.1 (by decide), by simpa using h2.2 ⟨none, 0, 4⟩ (by decide) rfl⟩

/-! ### LinkProgram: descriptor-binding merge (lines 632-671) and
descriptor-set writes (lines 1282-1321) -/

/-- The descriptor resource kinds produced by shader reflection
(CreateShader, lines 582-601). -/
inductive DescriptorKind where
  | uniformBuffer
  | combinedImageSampler
  | sampledImage
  | sampler
deriving DecidableEq, Repr

/-- A `vk::DescriptorSetLayoutBinding` as assembled by LinkProgram:
binding index, descriptor kind, and the ORed stage-flag bits. -/
structure LayoutBinding where
  binding : Nat
  descriptorType : DescriptorKind
  stageFlags : Nat
deriving DecidableEq, Repr

/-- OR an extra stage flag into the layout binding stored at key `b`. -/
def addStageFlag (m : List (Nat × LayoutBinding)) (b flag : Nat) :
    List (Nat × LayoutBinding) :=
  m.map fun e =>
    if e.1 = b then (e.1, { e.2 with stageFlags := e.2.stageFlags ||| flag }) else e

/-- One iteration of the inner merge loop of LinkProgram (lines 638-659):
if the binding index is already present with a different descriptor kind,
log the conflict and leave the existing entry untouched (first-declared
kind wins, the stage flag is not added either); if present with the same
kind, OR in this stage's flag; otherwise insert a fresh layout binding. -/
def insertBinding (flag : Nat) (acc : List (Nat × LayoutBinding) × List LogEvent)
    (bk : Nat × DescriptorKind) : List (Nat × LayoutBinding) × List LogEvent :=
  match acc.1.lookup bk.1 with
  | some lb =>
    if lb.descriptorType ≠ bk.2 then
      (acc.1, acc.2 ++ [LogEvent.bindingConflict bk.1])
    else
      (addStageFlag acc.1 bk.1 flag, acc.2)
  | none => (acc.1 ++ [(bk.1, ⟨bk.1, bk.2, flag⟩)], acc.2)

/-- Merge the descriptor bindings of one attached stage into the
accumulated map. -/
def mergeStage (acc : List (Nat × LayoutBinding) × List LogEvent)
    (stage : Nat × List (Nat × DescriptorKind)) :
    List (Nat × LayoutBinding) × List LogEvent :=
  stage.2.foldl (insertBinding stage.1) acc

/-- The whole descriptor-binding merge of LinkProgram over all attached
stages (each a stage-flag with its reflected (binding index, kind) list):
produces the merged set-layout map and the conflict log. The merge has no
failure path — linking succeeds regardless of conflicts. -/
def mergeDescriptorBindings (stages : List (Nat × List (Nat × DescriptorKind))) :
    List (Nat × LayoutBinding) × List LogEvent :=
  stages.foldl mergeStage ([], [])

theorem insertBinding_new (flag : Nat) (acc : List (Nat × LayoutBinding) × List LogEvent)
    (bk : Nat × DescriptorKind) (h : acc.1.lookup bk.1 = none) :
    insertBinding flag acc bk = (acc.1 ++ [(bk.1, ⟨bk.1, bk.2, flag⟩)], acc.2) := by
  unfold insertBinding
  split
  · next lb heq =>
    rw [h] at heq
    cases heq
  · rfl

theorem insertBinding_conflict (flag : Nat)
    (acc : List (Nat × LayoutBinding) × List LogEvent) (bk : Nat × DescriptorKind)
    (lb : LayoutBinding) (h : acc.1.lookup bk.1 = some lb)
    (hne : lb.descriptorType ≠ bk.2) :
    insertBinding flag acc bk = (acc.1, acc.2 ++ [LogEvent.bindingConflict bk.1]) := by
  unfold insertBinding
  split
  · next lb2 heq =>
    rw [h] at heq
    injection heq with h2
    subst h2
    rw [if_pos hne]
  · next heq =>
    rw [h] at heq
    cases heq

/-- C6: linking two stages that declare the same binding index with
different descriptor kinds succeeds (the merge is total, with no failure
path), the merged set layout retains the first-declared kind with the
first stage's flag for that binding, and a conflict for that binding index
is logged. -/
theorem link_binding_conflict_first_wins (f1 f2 b : Nat) (k1 k2 : DescriptorKind)
    (h : k1 ≠ k2) :
    (mergeDescriptorBindings [(f1, [(b, k1)]), (f2, [(b, k2)])]).1.lookup b =
        some ⟨b, k1, f1⟩ ∧
      (mergeDescriptorBindings [(f1, [(b, k1)]), (f2, [(b, k2)])]).2 =
        [LogEvent.bindingConflict b] := by
  have h1 : mergeStage ([], []) (f1, [(b, k1)]) =
      ([(b, (⟨b, k1, f1⟩ : LayoutBinding))], []) := by
    unfold mergeStage
    rw [List.foldl_cons, List.foldl_nil]
    rw [insertBinding_new f1 ([], []) (b, k1) rfl]
    rfl
  have h2 : mergeStage ([(b, (⟨b, k1, f1⟩ : LayoutBinding))], []) (f2, [(b, k2)]) =
      ([(b, (⟨b, k1, f1⟩ : LayoutBinding))], [LogEvent.bindingConflict b]) := by
    unfold mergeStage
    rw [List.foldl_cons, List.foldl_nil]
    rw [insertBinding_conflict f2 _ (b, k2) ⟨b, k1, f1⟩ (lookup_cons_self b _ []) h]
    rfl
  unfold mergeDescriptorBindings
  rw [List.foldl_cons, List.foldl_cons, List.foldl_nil, h1, h2]
  exact ⟨lookup_cons_self b _ [], rfl⟩

/-- Witness for C6 at concrete inputs: stage flags 1 and 2 both declaring
binding 3, the first as a uniform buffer and the second as a combined
image sampler. -/
theorem link_binding_conflict_first_wins_witness :
    (mergeDescriptorBindings [(1, [(3, DescriptorKind.uniformBuffer)]),
        (2, [(3, DescriptorKind.combinedImageSampler)])]).1.lookup 3 =
        some ⟨3, DescriptorKind.uniformBuffer, 1⟩ ∧
      (mergeDescriptorBindings [(1, [(3, DescriptorKind.uniformBuffer)]),
          (2, [(3, DescriptorKind.combinedImageSampler)])]).2 =
        [LogEvent.bindingConflict 3] :=
  link_binding_conflict_first_wins 1 2 3 DescriptorKind.uniformBuffer
    DescriptorKind.combinedImageSampler (by decide)

/-- The descriptor-write loop of `findOrCreateDescriptorSet` for one
swapchain image (lines 1286-1318): for each layout binding of
uniform-buffer kind, access `uniform_buffers.at(binding.binding)` — which
fails (std::out_of_range) when the raw binding index is not below the
number of the program's uniform blocks; all other kinds do not touch the
uniform-buffer vector. Returns the accessed uniform-buffer positions, or
none on an out-of-range failure. -/
def descriptorSetWrites : List LayoutBinding → Nat → Option (List Nat)
  | [], _ => some []
  | lb :: rest, n =>
    match lb.descriptorType with
    | DescriptorKind.uniformBuffer =>
      if lb.binding < n then (descriptorSetWrites rest n).map fun l => lb.binding :: l
      else none
    | _ => descriptorSetWrites rest n

theorem descriptorSetWrites_isSome (lbs : List LayoutBinding) (n : Nat) :
    (descriptorSetWrites lbs n).isSome = true ↔
      ∀ lb ∈ lbs, lb.descriptorType = DescriptorKind.uniformBuffer → lb.binding < n := by
  induction lbs with
  | nil => simp [descriptorSetWrites]
  | cons lb rest ih =>
    cases hk : lb.descriptorType with
    | uniformBuffer =>
      by_cases hb : lb.binding < n
      · simp [descriptorSetWrites, hk, hb, ih]
      · simp only [descriptorSetWrites, hk, if_neg hb, Option.isSome_none,
          Bool.false_eq_true, false_iff]
        intro hall
        exact hb (hall lb (List.mem_cons_self _ _) hk)
    | combinedImageSampler => simp [descriptorSetWrites, hk, ih]
    | sampledImage => simp [descriptorSetWrites, hk, ih]
    | sampler => simp [descriptorSetWrites, hk, ih]

theorem sorted_all_lt_length_eq_range (S : List Nat) (hs : S.Sorted (· < ·))
    (hall : ∀ b ∈ S, b < S.length) : S = List.range S.length := by
  have hmono := hs.get_strictMono
  have hstep : ∀ d i (h : i + d < S.length),
      S.get ⟨i, by omega⟩ + d ≤ S.get ⟨i + d, h⟩ := by
    intro d
    induction d with
    | zero => intro i h; simp
    | succ d ihd =>
      intro i h
      have h1 : i + d < S.length := by omega
      have h2 := ihd i h1
      have h3 : S.get ⟨i + d, h1⟩ < S.get ⟨i + (d + 1), h⟩ :=
        hmono (by exact Fin.mk_lt_mk.2 (by omega))
      omega
  have hlow : ∀ i (hi : i < S.length), i ≤ S.get ⟨i, hi⟩ := by
    intro i
    induction i with
    | zero => intro hi; exact Nat.zero_le _
    | succ i ihi =>
      intro hi
      have h1 : i < S.length := by omega
      have h2 := ihi h1
      have h3 : S.get ⟨i, h1⟩ < S.get ⟨i + 1, hi⟩ :=
        hmono (by exact Fin.mk_lt_mk.2 (by omega))
      omega
  have hup : ∀ i (hi : i < S.length), S.get ⟨i, hi⟩ ≤ i := by
    intro i hi
    have hlast : S.length - 1 < S.length := by omega
    have h1 : i + (S.length - 1 - i) < S.length := by omega
    have h2 := hstep (S.length - 1 - i) i h1
    have h3 : S.get ⟨i + (S.length - 1 - i), h1⟩ < S.length :=
      hall _ (S.get_mem _ _)
    have h4 : S.get ⟨i, hi⟩ + (S.length - 1 - i) < S.length := by
      exact Nat.lt_of_le_of_lt h2 h3
    omega
  apply List.ext_get
  · rw [List.length_range]
  · intro i h1 h2
    rw [List.get_range]
    exact Nat.le_antisymm (hup i h1) (hlow i h1)

/-- C10: descriptor-set creation for a program whose merged uniform-block
binding indices are the strictly ascending list `S` (LinkProgram iterates
the merged std::map in ascending binding order, pushing one uniform buffer
per block starting at position 0, so the vector has `S.length` entries)
looks each uniform-buffer layout binding up by its raw binding index; the
writes complete without an out-of-range failure exactly when `S` is the
contiguous range `0..S.length-1`, and any uniform-block binding index not
below the number of uniform blocks makes the lookup fail. -/
theorem descriptor_set_contiguous_bindings (S : List Nat) (fl : Nat → Nat)
    (hs : S.Sorted (· < ·)) :
    ((descriptorSetWrites (S.map fun b => ⟨b, DescriptorKind.uniformBuffer, fl b⟩)
        S.length).isSome = true ↔ S = List.range S.length) ∧
    (∀ b ∈ S, S.length ≤ b →
      descriptorSetWrites (S.map fun b => ⟨b, DescriptorKind.uniformBuffer, fl b⟩)
        S.length = none) := by
  have hiff : (descriptorSetWrites
      (S.map fun b => ⟨b, DescriptorKind.uniformBuffer, fl b⟩) S.length).isSome = true ↔
      ∀ b ∈ S, b < S.length := by
    rw [descriptorSetWrites_isSome]
    constructor
    · intro h b hb
      exact h ⟨b, DescriptorKind.uniformBuffer, fl b⟩ (List.mem_map.2 ⟨b, hb, rfl⟩) rfl
    · intro h lb hlb _
      obtain ⟨b, hb, rfl⟩ := List.mem_map.1 hlb
      exact h b hb
  constructor
  · rw [hiff]
    constructor
    · intro h
      exact sorted_all_lt_length_eq_range S hs h
    · intro h b hb
      rw [h] at hb
      exact List.mem_range.1 hb
  · intro b hb hge
    have : ¬ (descriptorSetWrites
        (S.map fun b => ⟨b, DescriptorKind.uniformBuffer, fl b⟩) S.length).isSome = true := by
      rw [hiff]
      intro hall
      exact absurd (hall b hb) (Nat.not_lt_of_le hge)
    exact Option.not_isSome_iff_eq_none.1 (by simpa using this)

/-- Witness for C10: binding set {0, 1} (contiguous) succeeds, and the
shader of examples/media/shaders/cube_solid.frag — a single uniform block
at binding 1 — has a binding index (1) not below its block count (1), so
its descriptor-set writes fail. -/
theorem descriptor_set_contiguous_bindings_witness :
    (descriptorSetWrites [⟨0, DescriptorKind.uniformBuffer, 1⟩,
        ⟨1, DescriptorKind.uniformBuffer, 1⟩] 2).isSome = true ∧
      descriptorSetWrites [⟨1, DescriptorKind.uniformBuffer, 1⟩] 1 = none := by
  have h1 := descriptor_set_contiguous_bindings [0, 1] (fun _ => 1)
    (by simp [List.Sorted])
  have h2 := descriptor_set_contiguous_bindings [1] (fun _ => 1)
    (by simp [List.Sorted])
  exact ⟨(h1.1.2 (by decide)), h2.2 1 (by decide) (by decide)⟩

/-! ### Resource registry and Delete command executors (lines 467-782) -/

/-- Record `VertexBufferVK`: the GPU buffer and backing memory identities of a
vertex-buffer record. -/
structure VertexBufferVK where
  buffer : Nat
  buffer_memory : Nat
deriving DecidableEq, Repr

/-- Record `IndexBufferVK`: the GPU buffer and backing memory identities of an
index-buffer record. -/
structure IndexBufferVK where
  buffer : Nat
  buffer_memory : Nat
deriving DecidableEq, Repr

/-- Record `ShaderVK`: the shader-module identity of a shader record (the
reflection data is not needed by the Delete executor). -/
structure ShaderVK where
  module : Nat
deriving DecidableEq, Repr

/-- Record `TextureVK`: the image and memory identities of a texture record. -/
structure TextureVK where
  image : Nat
  image_memory : Nat
deriving DecidableEq, Repr

/-- The resource registry maps of `RenderContextVK` (lines 1640-1644). -/
structure Registry where
  vertex_buffer_map : List (Nat × VertexBufferVK)
  index_buffer_map : List (Nat × IndexBufferVK)
  shader_map : List (Nat × ShaderVK)
  program_map : List (Nat × ProgramVK)
  texture_map : List (Nat × TextureVK)
deriving DecidableEq, Repr

/-- GPU-side deallocation calls issued by the Delete executors. -/
inductive GpuFree where
  | freeMemory (id : Nat)
  | destroyBuffer (id : Nat)
  | destroyShaderModule (id : Nat)
deriving DecidableEq, Repr

def emptyRegistry : Registry := ⟨[], [], [], [], []⟩

/-- Erase every entry with the given key from an association list
(std::unordered_map::erase on a map with unique keys). -/
def eraseKey {β : Type} (m : List (Nat × β)) (h : Nat) : List (Nat × β) :=
  m.filter fun e => !(e.1 == h)

/-- Executor `operator()(const cmd::DeleteVertexBuffer&)` (lines 499-505): assert
the handle is registered (a failed assertion is fatal), free the backing
memory, destroy the buffer, and erase the registry entry. -/
def deleteVertexBuffer (r : Registry) (h : Nat) :
    Except String (Registry × List GpuFree) :=
  match r.vertex_buffer_map.lookup h with
  | none => Except.error "assertion failed: vertex_buffer_map_.count(c.handle) > 0"
  | some vb => Except.ok
      ({ r with vertex_buffer_map := eraseKey r.vertex_buffer_map h },
        [GpuFree.freeMemory vb.buffer_memory, GpuFree.destroyBuffer vb.buffer])

/-- Executor `operator()(const cmd::DeleteIndexBuffer&)` (lines 539-545): same
pattern as DeleteVertexBuffer. -/
def deleteIndexBuffer (r : Registry) (h : Nat) :
    Except String (Registry × List GpuFree) :=
  match r.index_buffer_map.lookup h with
  | none => Except.error "assertion failed: index_buffer_map_.count(c.handle) > 0"
  | some ib => Except.ok
      ({ r with index_buffer_map := eraseKey r.index_buffer_map h },
        [GpuFree.freeMemory ib.buffer_memory, GpuFree.destroyBuffer ib.buffer])

/-- Executor `operator()(const cmd::DeleteShader&)` (lines 606-610): assert the
handle is registered, destroy the shader module, erase the entry. -/
def deleteShader (r : Registry) (h : Nat) : Except String (Registry × List GpuFree) :=
  match r.shader_map.lookup h with
  | none => Except.error "assertion failed: shader_map_.count(c.handle) > 0"
  | some sh => Except.ok
      ({ r with shader_map := eraseKey r.shader_map h },
        [GpuFree.destroyShaderModule sh.module])

/-- Executor `operator()(const cmd::DeleteProgram&)` (lines 715-717): just
`program_map_.erase(c.handle)` — no registration assertion (erasing a
missing handle is a silent no-op) and no freeing of the program's GPU
allocations. -/
def deleteProgram (r : Registry) (h : Nat) : Except String (Registry × List GpuFree) :=
  Except.ok ({ r with program_map := eraseKey r.program_map h }, [])

/-- Executor `operator()(const cmd::DeleteTexture&)` (lines 775-776): an empty
body — the registry entry is not removed and nothing is freed. -/
def deleteTexture (r : Registry) (h : Nat) : Except String (Registry × List GpuFree) :=
  Except.ok (r, [])

/-- Executor `operator()(const cmd::CreateProgram&)` (lines 612-614):
`program_map_.emplace(c.handle, ProgramVK{})` — inserts an empty record
when the key is absent. -/
def createProgram (r : Registry) (h : Nat) : Registry :=
  match r.program_map.lookup h with
  | some _ => r
  | none => { r with program_map := (h, (⟨[], []⟩ : ProgramVK)) :: r.program_map }

theorem lookup_eraseKey {β : Type} (m : List (Nat × β)) (h : Nat) :
    (eraseKey m h).lookup h = none := by
  induction m with
  | nil => rfl
  | cons e rest ih =>
    unfold eraseKey at ih ⊢
    by_cases he : e.1 = h
    · rw [List.filter_cons_of_neg (by simp [he])]
      exact ih
    · rw [List.filter_cons_of_pos (by simp [he])]
      rw [show (e : Nat × β) = (e.1, e.2) from rfl, lookup_cons_ne e.1 h e.2 _
        (fun hc => he hc.symm)]
      exact ih

/-- Whether an executor result is non-fatal. -/
def exceptIsOk {ε α : Type} : Except ε α → Bool
  | Except.ok _ => true
  | Except.error _ => false

/-- Counterexample for C3: for the program handle kind, Create followed by
Delete and then a second Delete of the same handle is NOT rejected — both
deletes succeed (DeleteProgram performs a bare map erase with no
registration assertion), and neither delete issues any GPU-side free. -/
theorem second_delete_program_not_fatal :
    deleteProgram (createProgram emptyRegistry 1) 1 =
        Except.ok (emptyRegistry, ([] : List GpuFree)) ∧
      deleteProgram emptyRegistry 1 = Except.ok (emptyRegistry, ([] : List GpuFree)) := by
  constructor
  · rfl
  · rfl

/-- C3 (amended): for vertex buffers, index buffers and shaders, Delete on
a registered handle frees the record's GPU allocations and removes the
handle from the registry, while Delete on an unregistered handle (hence
also a second Delete of the same handle) fails the registration assertion
and is fatal; DeleteProgram always succeeds, removing the registry entry
but freeing no GPU allocations, so an unregistered or repeated
DeleteProgram is a silent no-op; DeleteTexture is an unimplemented no-op
that neither frees nor removes anything. -/
theorem delete_command_behaviour (r : Registry) (h : Nat) :
    (∀ vb, r.vertex_buffer_map.lookup h = some vb →
      deleteVertexBuffer r h = Except.ok
          ({ r with vertex_buffer_map := eraseKey r.vertex_buffer_map h },
            [GpuFree.freeMemory vb.buffer_memory, GpuFree.destroyBuffer vb.buffer]) ∧
        (eraseKey r.vertex_buffer_map h).lookup h = none) ∧
    (r.vertex_buffer_map.lookup h = none →
      exceptIsOk (deleteVertexBuffer r h) = false) ∧
    (∀ ib, r.index_buffer_map.lookup h = some ib →
      deleteIndexBuffer r h = Except.ok
          ({ r with index_buffer_map := eraseKey r.index_buffer_map h },
            [GpuFree.freeMemory ib.buffer_memory, GpuFree.destroyBuffer ib.buffer]) ∧
        (eraseKey r.index_buffer_map h).lookup h = none) ∧
    (r.index_buffer_map.lookup h = none →
      exceptIsOk (deleteIndexBuffer r h) = false) ∧
    (∀ sh, r.shader_map.lookup h = some sh →
      deleteShader r h = Except.ok
          ({ r with shader_map := eraseKey r.shader_map h },
            [GpuFree.destroyShaderModule sh.module]) ∧
        (eraseKey r.shader_map h).lookup h = none) ∧
    (r.shader_map.lookup h = none → exceptIsOk (deleteShader r h) = false) ∧
    (deleteProgram r h =
        Except.ok ({ r with program_map := eraseKey r.program_map h }, []) ∧
      (eraseKey r.program_map h).lookup h = none) ∧
    deleteTexture r h = Except.ok (r, []) := by
  refine ⟨?_, ?_, ?_, ?_, ?_, ?_, ⟨rfl, lookup_eraseKey _ _⟩, rfl⟩
  · intro vb hvb
    refine ⟨?_, lookup_eraseKey _ _⟩
    unfold deleteVertexBuffer
    rw [hvb]
  · intro hn
    unfold deleteVertexBuffer
    rw [hn]
    rfl
  · intro ib hib
    refine ⟨?_, lookup_eraseKey _ _⟩
    unfold deleteIndexBuffer
    rw [hib]
  · intro hn
    unfold deleteIndexBuffer
    rw [hn]
    rfl
  · intro sh hsh
    refine ⟨?_, lookup_eraseKey _ _⟩
    unfold deleteShader
    rw [hsh]
  · intro hn
    unfold deleteShader
    rw [hn]
    rfl

/-- Witness for the amended C3 at concrete registries: deleting registered
vertex-buffer handle 1 succeeds, frees its memory then destroys its
buffer, and removes the handle; deleting it from the empty registry is
fatal; an unregistered DeleteProgram succeeds; DeleteTexture leaves the
registry untouched. -/
theorem delete_command_behaviour_witness :
    deleteVertexBuffer ⟨[(1, ⟨10, 11⟩)], [], [], [], []⟩ 1 =
        Except.ok (emptyRegistry, [GpuFree.freeMemory 11, GpuFree.destroyBuffer 10]) ∧
      exceptIsOk (deleteVertexBuffer emptyRegistry 1) = false ∧
      deleteProgram emptyRegistry 9 = Except.ok (emptyRegistry, []) ∧
      deleteTexture emptyRegistry 5 = Except.ok (emptyRegistry, []) := by
  have h1 := delete_command_behaviour ⟨[(1, ⟨10, 11⟩)], [], [], [], []⟩ 1
  have h2 := delete_command_behaviour emptyRegistry 1
  have h3 := delete_command_behaviour emptyRegistry 9
  have h4 := delete_command_behaviour emptyRegistry 5
  refine ⟨?_, h2.2.1 rfl, h3.2.2.2.2.2.2.1.1, h4.2.2.2.2.2.2.2⟩
  have := (h1.1 ⟨10, 11⟩ rfl).1
  rw [this]
  rfl

end Dgfx
